import Mathlib

/-!
Verification development for a TikTok influencer discovery pipeline
(cleaned_tiktok_influencer_finder.py).

The pipeline has four layers, modelled here as executable Lean functions:
* an HTTP adapter (class TikTokAPI) whose methods degrade transport and
  shape errors to empty results (modelled on the response value, with the
  transport outcome as an Except);
* a search aggregator (search_influencers_by_keyword) that pages through
  search results and deduplicates by secUid with Python-dict semantics;
* a qualification filter (filter_influencers) applying a follower ceiling,
  a per-candidate video fetch, and an average-view floor; the video-fetch
  calls performed are recorded in an explicit call trace so that claims
  about which candidates trigger a fetch are statable;
* a multi-keyword orchestrator (find_tiktok_influencers) that concatenates
  per-keyword qualified lists and deduplicates by username.

Python floats are modelled as rationals; Python ints as Int; a dict
comprehension keyed by k is modelled by pyDict (first-occurrence position,
last-write-wins value, exactly CPython dict semantics).
-/

/-- A raw user record as returned inside a search result: the fields the
pipeline reads from user_data["user"].  Fields read with .get (defaulted)
are Options, so a missing JSON key is representable. -/
structure User where
  uniqueId : String
  secUid : String
  followerCount : Option Int
  nickname : Option String
  signature : Option String
  followingCount : Option Int
  videoCount : Option Int
  verified : Option Bool
deriving DecidableEq

/-- One element of the search result list: user_data with its "user" field. -/
structure UserData where
  user : User
deriving DecidableEq

/-- The "stats" object of a video record. -/
structure VideoStats where
  playCount : Int
deriving DecidableEq

/-- A raw video record: the pipeline reads video["stats"]["playCount"]. -/
structure Video where
  stats : VideoStats
deriving DecidableEq

/-- A qualified influencer record, as built by filter_influencers. -/
structure Influencer where
  username : String
  displayName : String
  bio : String
  followerCount : Int
  followingCount : Int
  videoCount : Int
  avgViews : ℚ
  verified : Bool
  secUid : String
  niche : String
  profileUrl : String
deriving DecidableEq

/-- The JSON body of the user-search endpoint: data["userInfo"]["user_list"],
each level possibly missing. -/
structure SearchUserInfo where
  user_list : Option (List UserData)

/-- Search response payload: the optional "userInfo" object. -/
structure SearchResponse where
  userInfo : Option SearchUserInfo

/-- The JSON body of the video-list endpoint: the optional "itemList". -/
structure VideosResponse where
  itemList : Option (List Video)

/-- TikTokAPI.search_users, modelled on the outcome of the HTTP round trip:
Except.error is a raised requests.RequestException (raise_for_status or
transport failure), Except.ok carries the parsed JSON body.  Missing
"userInfo" or "user_list" yields [] (the warning branch); an exception is
caught and yields []. -/
def TikTokAPI.search_users : Except String SearchResponse → List UserData
  | Except.error _ => []
  | Except.ok data =>
    match data.userInfo with
    | none => []
    | some ui =>
      match ui.user_list with
      | none => []
      | some l => l

/-- TikTokAPI.get_user_videos, modelled like TikTokAPI.search_users:
a transport error or a missing "itemList" yields []. -/
def TikTokAPI.get_user_videos : Except String VideosResponse → List Video
  | Except.error _ => []
  | Except.ok data =>
    match data.itemList with
    | none => []
    | some l => l

/-- The adapter as seen by the pipeline: search_users (keyword, count,
offset) and get_user_videos (sec_uid, count) as pure functions over the
frozen remote data. -/
structure Api where
  search_users : String → Nat → Nat → List UserData
  get_user_videos : String → Nat → List Video

/-- Insertion of one element into a CPython dict keyed by key: if the key
is present the value is overwritten in place (position kept), otherwise
the binding is appended. -/
def dictInsert {α κ : Type} [DecidableEq κ] (key : α → κ) (d : List α) (x : α) : List α :=
  if d.any (fun y => key y = key x) then
    d.map (fun y => if key y = key x then x else y)
  else
    d ++ [x]

/-- The dict comprehension pattern of the source, for instance at line 126,
unique_users = \x7buser["user"]["secUid"]: user for user in all_users\x7d
followed by list(...values()): first-occurrence position, last-write-wins. -/
def pyDict {α κ : Type} [DecidableEq κ] (key : α → κ) (l : List α) : List α :=
  l.foldl (dictInsert key) []

/-- The pagination while-loop of search_influencers_by_keyword.  The loop
runs while all_users.length < max_results, breaks on an empty page, and
otherwise extends all_users with the whole page and advances the offset by
the page length.  Each non-breaking iteration adds at least one user, so
fuel = max_results is enough: fuel + all_users.length ≥ max_results is
invariant, hence the fuel-exhausted branch returns exactly when the loop
condition is false (searchLoop_fuel_irrelevant below makes this formal). -/
def searchLoop (search : Nat → List UserData) (max_results : Nat) :
    Nat → List UserData → Nat → List UserData
  | 0, all_users, _ => all_users
  | Nat.succ fuel, all_users, offset =>
    if all_users.length < max_results then
      let users := search offset
      if users = [] then all_users
      else searchLoop search max_results fuel (all_users ++ users) (offset + users.length)
    else all_users

/-- search_influencers_by_keyword: page through search results starting at
offset 0 with batch_size 30, then deduplicate by secUid. -/
def search_influencers_by_keyword (search_users : String → Nat → Nat → List UserData)
    (keyword : String) (max_results : Nat) : List UserData :=
  let all_users := searchLoop (fun off => search_users keyword 30 off) max_results
    max_results [] 0
  pyDict (fun u => u.user.secUid) all_users

/-- The per-candidate body of the filter loop in filter_influencers.
First component: the qualified record, if the candidate is accepted.
Second component: the call trace, the secUids passed to get_user_videos
while processing this candidate (empty when the follower ceiling rejects
the candidate before the fetch). -/
def processUser (getVideos : String → Nat → List Video)
    (max_followers min_avg_views : Int) (niche : String) (user_data : UserData) :
    Option Influencer × List String :=
  let user := user_data.user
  let username := user.uniqueId
  let sec_uid := user.secUid
  let follower_count := user.followerCount.getD 0
  if follower_count > max_followers then
    (none, [])
  else
    let videos := getVideos sec_uid 30
    if videos = [] then
      (none, [sec_uid])
    else
      let total_views := (videos.map (fun v => v.stats.playCount)).sum
      let avg_views : ℚ := (total_views : ℚ) / (videos.length : ℚ)
      if avg_views ≥ (min_avg_views : ℚ) then
        (some
          { username := username
            displayName := user.nickname.getD ""
            bio := user.signature.getD ""
            followerCount := follower_count
            followingCount := user.followingCount.getD 0
            videoCount := user.videoCount.getD 0
            avgViews := avg_views
            verified := user.verified.getD false
            secUid := sec_uid
            niche := niche
            profileUrl := "https://www.tiktok.com/@" ++ username }, [sec_uid])
      else
        (none, [sec_uid])

/-- filter_influencers: fold the per-candidate body over the candidate
list in order, accumulating qualified records and the video-fetch call
trace. -/
def filter_influencers (getVideos : String → Nat → List Video) (users : List UserData)
    (max_followers min_avg_views : Int) (niche : String) :
    List Influencer × List String :=
  users.foldl
    (fun acc user_data =>
      let r := processUser getVideos max_followers min_avg_views niche user_data
      (acc.1 ++ r.1.toList, acc.2 ++ r.2))
    ([], [])

/-- One keyword's qualified list inside find_tiktok_influencers: search,
then filter, tagging with the keyword as niche. -/
def qualified_for (api : Api) (max_followers min_avg_views : Int)
    (results_per_keyword : Nat) (keyword : String) : List Influencer :=
  (filter_influencers api.get_user_videos
    (search_influencers_by_keyword api.search_users keyword results_per_keyword)
    max_followers min_avg_views keyword).1

/-- The running all_influencers list of the orchestrator's keyword loop. -/
def all_influencers (api : Api) (keywords : List String)
    (max_followers min_avg_views : Int) (results_per_keyword : Nat) : List Influencer :=
  keywords.foldl
    (fun acc keyword => acc ++ qualified_for api max_followers min_avg_views
      results_per_keyword keyword)
    []

/-- find_tiktok_influencers: run search and filter per keyword, concatenate,
then deduplicate by username with dict semantics. -/
def find_tiktok_influencers (api : Api) (keywords : List String)
    (max_followers min_avg_views : Int) (results_per_keyword : Nat) : List Influencer :=
  pyDict (fun inf => inf.username)
    (all_influencers api keywords max_followers min_avg_views results_per_keyword)

/-- Sample candidate below the default follower ceiling. -/
def sampleUserA : User := ⟨"alice", "sa", some 100, none, none, none, none, none⟩

/-- Sample candidate wrapped as a search result element. -/
def sampleA : UserData := ⟨sampleUserA⟩

/-- A second, distinct sample candidate. -/
def sampleUserB : User := ⟨"bob", "sb", some 200, none, none, none, none, none⟩

/-- Second sample candidate as a search result element. -/
def sampleB : UserData := ⟨sampleUserB⟩

/-- Sample candidate over the default follower ceiling. -/
def sampleBig : UserData := ⟨⟨"carol", "sc", some 600000, none, none, none, none, none⟩⟩

/-- Sample candidate whose record lacks the followerCount field. -/
def sampleNoFC : UserData := ⟨⟨"dana", "sd", none, none, none, none, none, none⟩⟩

/-- One sample video with 50000 plays. -/
def sampleVideos : List Video := [⟨⟨50000⟩⟩]

/-- A video fetch that always returns the sample video. -/
def fetchSample : String → Nat → List Video := fun _ _ => sampleVideos

/-- A video fetch that always returns no videos. -/
def fetchNone : String → Nat → List Video := fun _ _ => []

/-- A video fetch equal to fetchSample on secUid "sa" and empty elsewhere. -/
def fetchOnlySa : String → Nat → List Video :=
  fun s _ => if s = "sa" then sampleVideos else []

/-- A search returning two users on the first page and nothing after. -/
def searchTwoThenEmpty : String → Nat → Nat → List UserData :=
  fun _ _ off => if off = 0 then [sampleA, sampleB] else []

/-- An adapter over a remote with no data at all. -/
def emptyApi : Api := ⟨fun _ _ _ => [], fun _ _ => []⟩

/-- An adapter combining the two-user search page with the sample video. -/
def sampleApi : Api := ⟨searchTwoThenEmpty, fetchSample⟩

/-- The qualified record produced from sampleA under the default thresholds. -/
def sampleInf : Influencer :=
  ⟨"alice", "", "", 100, 0, 0, 50000, false, "sa", "tech", "https://www.tiktok.com/@alice"⟩

section PyDictLemmas

variable {α κ : Type} [DecidableEq κ] (key : α → κ)

theorem dictInsert_length_le (d : List α) (x : α) :
    (dictInsert key d x).length ≤ d.length + 1 := by
  unfold dictInsert
  split
  · simp
  · simp

theorem foldl_dictInsert_length_le (l d : List α) :
    (l.foldl (dictInsert key) d).length ≤ d.length + l.length := by
  induction l generalizing d with
  | nil => simp
  | cons x t ih =>
    simp only [List.foldl_cons, List.length_cons]
    have h1 := ih (dictInsert key d x)
    have h2 := dictInsert_length_le key d x
    omega

theorem pyDict_length_le (l : List α) : (pyDict key l).length ≤ l.length := by
  have h := foldl_dictInsert_length_le key l []
  simpa [pyDict] using h

theorem find?_replace_of_key_eq (x : α) (k : κ) (hk : key x = k) (d : List α)
    (hd : d.any (fun y => key y = key x) = true) :
    (d.map (fun y => if key y = key x then x else y)).find? (fun y => key y = k)
      = some x := by
  induction d with
  | nil => simp at hd
  | cons h t ih =>
    by_cases hh : key h = key x
    · simp [hh, hk]
    · have ht : t.any (fun y => key y = key x) = true := by
        simp only [List.any_cons, hh] at hd
        simpa using hd
      have hhk : ¬ key h = k := by
        rw [← hk]; exact hh
      simp only [List.map_cons, if_neg hh]
      rw [List.find?_cons_of_neg, ih ht]
      simpa using hhk

theorem find?_replace_of_key_ne (x : α) (k : κ) (hk : ¬ key x = k) (d : List α) :
    (d.map (fun y => if key y = key x then x else y)).find? (fun y => key y = k)
      = d.find? (fun y => key y = k) := by
  induction d with
  | nil => simp
  | cons h t ih =>
    by_cases hh : key h = key x
    · have hhk : ¬ key h = k := by rw [hh]; exact hk
      simp only [List.map_cons, if_pos hh]
      rw [List.find?_cons_of_neg, List.find?_cons_of_neg, ih]
      · simpa using hhk
      · simpa using hk
    · simp only [List.map_cons, if_neg hh]
      by_cases hph : key h = k
      · rw [List.find?_cons_of_pos, List.find?_cons_of_pos] <;> simpa using hph
      · rw [List.find?_cons_of_neg, List.find?_cons_of_neg, ih] <;> simpa using hph

theorem find?_dictInsert (d : List α) (x : α) (k : κ) :
    (dictInsert key d x).find? (fun y => key y = k) =
      if key x = k then some x else d.find? (fun y => key y = k) := by
  unfold dictInsert
  by_cases hk : key x = k
  · simp only [if_pos hk]
    split
    · exact find?_replace_of_key_eq key x k hk d (by assumption)
    · rename_i hany
      have hnone : d.find? (fun y => key y = k) = none := by
        rw [List.find?_eq_none]
        intro y hy
        simp only [decide_eq_true_eq]
        intro hyk
        apply hany
        refine List.any_eq_true.mpr ⟨y, hy, ?_⟩
        simp [hyk, hk]
      rw [List.find?_append, hnone]
      simp [hk]
  · simp only [if_neg hk]
    split
    · exact find?_replace_of_key_ne key x k hk d
    · rw [List.find?_append]
      have hx : ([x].find? (fun y => key y = k)) = none := by simp [hk]
      rw [hx, Option.or_none]

theorem find?_foldl_dictInsert (k : κ) (l : List α) :
    ∀ d : List α,
    (l.foldl (dictInsert key) d).find? (fun y => key y = k) =
      (l.reverse.find? (fun y => key y = k)).or (d.find? (fun y => key y = k)) := by
  induction l with
  | nil => intro d; simp
  | cons x t ih =>
    intro d
    simp only [List.foldl_cons, List.reverse_cons, List.find?_append]
    rw [ih, find?_dictInsert]
    by_cases h : key x = k
    · simp [h, Option.or_assoc]
    · simp [h]

theorem pyDict_find? (l : List α) (k : κ) :
    (pyDict key l).find? (fun y => key y = k) =
      l.reverse.find? (fun y => key y = k) := by
  have h := find?_foldl_dictInsert key k l []
  simpa [pyDict] using h

theorem map_key_dictInsert_replace (d : List α) (x : α) :
    (d.map (fun y => if key y = key x then x else y)).map key = d.map key := by
  rw [List.map_map]
  apply List.map_congr_left
  intro y _
  by_cases h : key y = key x
  · simp [h, Function.comp]
  · simp [h, Function.comp]

theorem nodup_key_dictInsert (d : List α) (x : α)
    (hd : (d.map key).Nodup) : ((dictInsert key d x).map key).Nodup := by
  unfold dictInsert
  split
  · rw [map_key_dictInsert_replace]
    exact hd
  · rename_i hany
    rw [List.map_append]
    simp only [List.map_cons, List.map_nil]
    rw [List.nodup_append]
    refine ⟨hd, List.nodup_singleton _, ?_⟩
    intro a ha
    simp only [List.mem_singleton]
    intro hax
    apply hany
    obtain ⟨y, hy, hya⟩ := List.mem_map.mp ha
    refine List.any_eq_true.mpr ⟨y, hy, ?_⟩
    simp [hya, hax]

theorem nodup_key_foldl_dictInsert (l : List α) :
    ∀ d : List α, (d.map key).Nodup → ((l.foldl (dictInsert key) d).map key).Nodup := by
  induction l with
  | nil => intro d hd; simpa using hd
  | cons x t ih =>
    intro d hd
    exact ih (dictInsert key d x) (nodup_key_dictInsert key d x hd)

theorem nodup_key_pyDict (l : List α) : ((pyDict key l).map key).Nodup :=
  nodup_key_foldl_dictInsert key l [] (by simp)

theorem countP_le_one_of_nodup_key (k : κ) (l : List α)
    (h : (l.map key).Nodup) : l.countP (fun y => key y = k) ≤ 1 := by
  induction l with
  | nil => simp
  | cons x t ih =>
    simp only [List.map_cons, List.nodup_cons] at h
    obtain ⟨hx, ht⟩ := h
    by_cases hk : key x = k
    · rw [List.countP_cons_of_pos _ _ (by simpa using hk)]
      have hz : t.countP (fun y => key y = k) = 0 := by
        rw [List.countP_eq_zero]
        intro a ha
        simp only [decide_eq_true_eq]
        intro hak
        apply hx
        rw [List.mem_map]
        exact ⟨a, ha, by rw [hak, hk]⟩
      omega
    · rw [List.countP_cons_of_neg _ _ (by simpa using hk)]
      exact ih ht

theorem pyDict_countP_le_one (l : List α) (k : κ) :
    (pyDict key l).countP (fun y => key y = k) ≤ 1 :=
  countP_le_one_of_nodup_key key k (pyDict key l) (nodup_key_pyDict key l)

end PyDictLemmas

/-- The fuel-exhausted branch of searchLoop is unreachable as long as
fuel + all_users.length ≥ max_results: any two sufficient fuels give the
same result, so fuel = max_results in search_influencers_by_keyword
faithfully renders the unbounded while-loop. -/
theorem searchLoop_fuel_irrelevant (search : Nat → List UserData) (max_results : Nat) :
    ∀ (fuel fuel' : Nat) (all_users : List UserData) (offset : Nat),
    max_results ≤ fuel + all_users.length →
    max_results ≤ fuel' + all_users.length →
    searchLoop search max_results fuel all_users offset =
      searchLoop search max_results fuel' all_users offset := by
  intro fuel
  induction fuel with
  | zero =>
    intro fuel' all_users offset h h'
    have hstop : ¬ all_users.length < max_results := by omega
    cases fuel' with
    | zero => rfl
    | succ m => simp [searchLoop, hstop]
  | succ n ih =>
    intro fuel' all_users offset h h'
    cases fuel' with
    | zero =>
      have hstop : ¬ all_users.length < max_results := by omega
      simp [searchLoop, hstop]
    | succ m =>
      simp only [searchLoop]
      by_cases hlt : all_users.length < max_results
      · simp only [if_pos hlt]
        cases hu : search offset with
        | nil => simp
        | cons u us =>
          simp only [if_neg (by simp : ¬ (u :: us : List UserData) = [])]
          apply ih
          · simp [List.length_append]; omega
          · simp [List.length_append]; omega
      · simp [if_neg hlt]

/-- Length bound for the pagination loop: when every page has at most
bound users, the accumulated list never exceeds
max (initial length) (max_results + bound - 1), because a page is fetched
only while the accumulated length is below max_results. -/
theorem searchLoop_length_le (search : Nat → List UserData) (max_results bound : Nat)
    (hpages : ∀ off, (search off).length ≤ bound) :
    ∀ (fuel : Nat) (all_users : List UserData) (offset : Nat),
    (searchLoop search max_results fuel all_users offset).length ≤
      max all_users.length (max_results + bound - 1) := by
  intro fuel
  induction fuel with
  | zero => intro all_users offset; simp [searchLoop]
  | succ n ih =>
    intro all_users offset
    simp only [searchLoop]
    by_cases hlt : all_users.length < max_results
    · simp only [if_pos hlt]
      cases hu : search offset with
      | nil => simp
      | cons u us =>
        simp only [if_neg (by simp : ¬ (u :: us : List UserData) = [])]
        have hb := hpages offset
        rw [hu] at hb
        have hrec := ih (all_users ++ u :: us) (offset + (u :: us).length)
        have hlen : (all_users ++ u :: us).length = all_users.length + (u :: us).length := by
          simp
        have hcons : (u :: us).length = us.length + 1 := by simp
        refine le_trans hrec ?_
        simp only [max_le_iff] at *
        omega
    · simp [if_neg hlt]

/-- Unfolding the filter fold with an arbitrary accumulator: qualified
records and call trace are the concatenation, in candidate order, of the
per-candidate results. -/
theorem filter_foldl_eq (getVideos : String → Nat → List Video)
    (max_followers min_avg_views : Int) (niche : String) :
    ∀ (users : List UserData) (acc : List Influencer × List String),
    users.foldl
      (fun acc user_data =>
        let r := processUser getVideos max_followers min_avg_views niche user_data
        (acc.1 ++ r.1.toList, acc.2 ++ r.2)) acc =
    (acc.1 ++ (users.map
        (fun ud => (processUser getVideos max_followers min_avg_views niche ud).1.toList)).flatten,
     acc.2 ++ (users.map
        (fun ud => (processUser getVideos max_followers min_avg_views niche ud).2)).flatten) := by
  intro users
  induction users with
  | nil => intro acc; simp
  | cons ud t ih =>
    intro acc
    simp only [List.foldl_cons, List.map_cons, List.flatten_cons]
    rw [ih]
    simp [List.append_assoc]

/-- filter_influencers, characterised componentwise. -/
theorem filter_influencers_eq (getVideos : String → Nat → List Video)
    (users : List UserData) (max_followers min_avg_views : Int) (niche : String) :
    filter_influencers getVideos users max_followers min_avg_views niche =
    ((users.map
        (fun ud => (processUser getVideos max_followers min_avg_views niche ud).1.toList)).flatten,
     (users.map
        (fun ud => (processUser getVideos max_followers min_avg_views niche ud).2)).flatten) := by
  unfold filter_influencers
  rw [filter_foldl_eq]
  simp

/-- Any accepted record carries the supplied niche label. -/
theorem processUser_niche (getVideos : String → Nat → List Video)
    (max_followers min_avg_views : Int) (niche : String) (ud : UserData)
    (inf : Influencer)
    (h : (processUser getVideos max_followers min_avg_views niche ud).1 = some inf) :
    inf.niche = niche := by
  simp only [processUser] at h
  split at h
  · simp at h
  · split at h
    · simp at h
    · split at h
      · simp only [Option.some.injEq] at h
        rw [← h]
      · simp at h

/-- The orchestrator's keyword fold is the concatenation of the
per-keyword qualified lists. -/
theorem all_influencers_eq (api : Api) (max_followers min_avg_views : Int)
    (results_per_keyword : Nat) :
    ∀ (keywords : List String) (acc : List Influencer),
    keywords.foldl
      (fun acc keyword => acc ++ qualified_for api max_followers min_avg_views
        results_per_keyword keyword) acc =
    acc ++ (keywords.map
      (qualified_for api max_followers min_avg_views results_per_keyword)).flatten := by
  intro keywords
  induction keywords with
  | nil => intro acc; simp
  | cons kw t ih =>
    intro acc
    simp only [List.foldl_cons, List.map_cons, List.flatten_cons]
    rw [ih]
    simp [List.append_assoc]

/-- Searching the reverse of a concatenation of blocks is searching the
reversed block list, each block from its right end. -/
theorem reverse_join_find? {β γ : Type} (f : γ → List β) (p : β → Bool) :
    ∀ l : List γ,
    ((l.map f).flatten).reverse.find? p =
      l.reverse.findSome? (fun a => (f a).reverse.find? p) := by
  intro l
  induction l with
  | nil => simp
  | cons a t ih =>
    simp only [List.map_cons, List.flatten_cons, List.reverse_cons, List.reverse_append]
    rw [List.find?_append, ih, List.findSome?_append]
    have hx : ([a].findSome? (fun a => (f a).reverse.find? p)) = (f a).reverse.find? p := by
      cases h : (f a).reverse.find? p with
      | none => simp [List.findSome?, h]
      | some b => simp [List.findSome?, h]
    rw [hx]

/-- C1: in the qualification filter, a candidate whose video fetch returns
an empty list is rejected before any average is computed: the per-candidate
body yields no record, and filtering such a candidate contributes nothing
to the output, so the division by the number of fetched videos is reached
only for non-empty video lists. -/
theorem empty_videos_rejected (getVideos : String → Nat → List Video)
    (mf mv : Int) (niche : String) (ud : UserData)
    (h : getVideos ud.user.secUid 30 = []) :
    (processUser getVideos mf mv niche ud).1 = none ∧
    (filter_influencers getVideos [ud] mf mv niche).1 = [] := by
  have hp : (processUser getVideos mf mv niche ud).1 = none := by
    simp only [processUser, h]
    split
    · rfl
    · simp
  refine ⟨hp, ?_⟩
  rw [filter_influencers_eq]
  simp [hp]

/-- C1 witness: a concrete candidate whose fetch returns no videos. -/
theorem empty_videos_rejected_witness :
    (processUser fetchNone 550000 40000 "tech" sampleA).1 = none ∧
    (filter_influencers fetchNone [sampleA] 550000 40000 "tech").1 = [] :=
  empty_videos_rejected fetchNone 550000 40000 "tech" sampleA rfl

/-- C2: every record accepted by the per-candidate filter body comes from
a non-empty fetched video list, and its average view count is exactly the
sum of the play counts divided by the number of fetched videos (over ℚ,
the model of Python float arithmetic); in particular the divisor is
positive. -/
theorem avg_views_correct (getVideos : String → Nat → List Video)
    (mf mv : Int) (niche : String) (ud : UserData) (inf : Influencer)
    (h : (processUser getVideos mf mv niche ud).1 = some inf) :
    getVideos ud.user.secUid 30 ≠ [] ∧
    (0 : ℚ) < ((getVideos ud.user.secUid 30).length : ℚ) ∧
    inf.avgViews =
      ((getVideos ud.user.secUid 30).map (fun v => (v.stats.playCount : ℚ))).sum /
        ((getVideos ud.user.secUid 30).length : ℚ) := by
  simp only [processUser] at h
  split at h
  · simp at h
  · split at h
    · simp at h
    · rename_i hne
      have hpos : (0 : ℚ) < ((getVideos ud.user.secUid 30).length : ℚ) := by
        have : 0 < (getVideos ud.user.secUid 30).length := List.length_pos.mpr hne
        exact_mod_cast this
      split at h
      · simp only [Option.some.injEq] at h
        refine ⟨hne, hpos, ?_⟩
        rw [← h]
      · simp at h

/-- C2 witness: the sample candidate with one 50000-play video is accepted
with average 50000. -/
theorem avg_views_correct_witness :
    fetchSample sampleA.user.secUid 30 ≠ [] ∧
    (0 : ℚ) < ((fetchSample sampleA.user.secUid 30).length : ℚ) ∧
    sampleInf.avgViews =
      ((fetchSample sampleA.user.secUid 30).map (fun v => (v.stats.playCount : ℚ))).sum /
        ((fetchSample sampleA.user.secUid 30).length : ℚ) :=
  avg_views_correct fetchSample 550000 40000 "tech" sampleA sampleInf (by
    simp [processUser, fetchSample, sampleVideos, sampleA, sampleUserA, sampleInf,
      show ((40000 : ℚ) ≤ 50000) from by decide])

/-- C3: a candidate whose follower count exceeds max_followers is rejected
by the qualification filter with an empty video-fetch call trace: the
cheap follower check precedes, and here prevents, the fetch. -/
theorem follower_ceiling_no_fetch (getVideos : String → Nat → List Video)
    (mf mv : Int) (niche : String) (ud : UserData)
    (h : ud.user.followerCount.getD 0 > mf) :
    processUser getVideos mf mv niche ud = (none, []) := by
  simp only [processUser]
  rw [if_pos h]

/-- C3 witness: a concrete candidate with 600000 followers against a
550000 ceiling. -/
theorem follower_ceiling_no_fetch_witness :
    processUser fetchSample 550000 40000 "tech" sampleBig = (none, []) :=
  follower_ceiling_no_fetch fetchSample 550000 40000 "tech" sampleBig (by decide)

/-- C4 counterexample: the aggregator does NOT return at most max_results
candidates.  With max_results = 1 and a first page of two distinct users,
the whole page is appended before the count is re-checked, so two
candidates are returned. -/
theorem search_can_exceed_max_results :
    ¬ ((search_influencers_by_keyword searchTwoThenEmpty "k" 1).length ≤ 1) := by
  decide

/-- C4 amended: the aggregator stops paging when the accumulated count
reaches max_results or a page is empty, but the final page is appended
whole, so the bound is max_results + (page bound) - 1, not max_results:
if every page the adapter returns has at most bound entries, the result
has at most max_results + bound - 1 candidates. -/
theorem search_results_bounded (search_users : String → Nat → Nat → List UserData)
    (keyword : String) (max_results bound : Nat)
    (hpages : ∀ off, (search_users keyword 30 off).length ≤ bound) :
    (search_influencers_by_keyword search_users keyword max_results).length ≤
      max_results + bound - 1 := by
  unfold search_influencers_by_keyword
  refine le_trans (pyDict_length_le _ _) ?_
  have h := searchLoop_length_le (fun off => search_users keyword 30 off)
    max_results bound hpages max_results [] 0
  simpa using h

/-- C4 amended witness: two-user first page (bound 2), max_results 1,
result within 1 + 2 - 1. -/
theorem search_results_bounded_witness :
    (search_influencers_by_keyword searchTwoThenEmpty "k" 1).length ≤ 1 + 2 - 1 :=
  search_results_bounded searchTwoThenEmpty "k" 1 2 (by
    intro off
    simp only [searchTwoThenEmpty]
    split <;> simp)

/-- C5: deduplication by secUid with Python-dict semantics never increases
the number of records (result size is at most input size), keeps at most
one record per secUid, and is last-write-wins: looking up any secUid in
the result finds exactly the last occurrence of that secUid in the input. -/
theorem pyDict_secUid_dedup (l : List UserData) (k : String) :
    (pyDict (fun u => u.user.secUid) l).length ≤ l.length ∧
    (pyDict (fun u => u.user.secUid) l).countP (fun u => u.user.secUid = k) ≤ 1 ∧
    (pyDict (fun u => u.user.secUid) l).find? (fun u => u.user.secUid = k) =
      l.reverse.find? (fun u => u.user.secUid = k) :=
  ⟨pyDict_length_le _ l, pyDict_countP_le_one _ l k, pyDict_find? _ l k⟩

/-- C6: the orchestrator dedups the concatenated qualified lists by
username with last-write-wins: at most one record per username survives;
looking a username up finds the record of the last keyword that produced
it (the last occurrence, scanning keywords in reverse); and each keyword's
qualified records carry that keyword as their niche tag. -/
theorem orchestrator_dedup_by_username (api : Api) (keywords : List String)
    (mf mv : Int) (rpk : Nat) (u : String) :
    ((find_tiktok_influencers api keywords mf mv rpk).countP
      (fun i => i.username = u) ≤ 1) ∧
    ((find_tiktok_influencers api keywords mf mv rpk).find? (fun i => i.username = u) =
      keywords.reverse.findSome?
        (fun kw => (qualified_for api mf mv rpk kw).reverse.find?
          (fun i => i.username = u))) ∧
    (∀ kw inf, inf ∈ qualified_for api mf mv rpk kw → inf.niche = kw) := by
  refine ⟨?_, ?_, ?_⟩
  · exact pyDict_countP_le_one (fun i : Influencer => i.username) _ u
  · unfold find_tiktok_influencers all_influencers
    rw [all_influencers_eq]
    simp only [List.nil_append]
    rw [pyDict_find?, reverse_join_find?]
  · intro kw inf hinf
    unfold qualified_for at hinf
    rw [filter_influencers_eq] at hinf
    simp only at hinf
    obtain ⟨blk, hblk, hin⟩ := List.mem_flatten.mp hinf
    obtain ⟨ud, hud, hrfl⟩ := List.mem_map.mp hblk
    rw [← hrfl] at hin
    cases hopt : (processUser api.get_user_videos mf mv kw ud).1 with
    | none => rw [hopt] at hin; simp at hin
    | some r =>
      rw [hopt] at hin
      simp only [Option.toList_some, List.mem_singleton] at hin
      rw [← hin] at hopt
      exact processUser_niche api.get_user_videos mf mv kw ud inf hopt

/-- C6 witness: the dedup bound at a concrete orchestrator run. -/
theorem orchestrator_dedup_by_username_witness :
    (find_tiktok_influencers sampleApi ["tech", "ai"] 550000 40000 50).countP
      (fun i => i.username = "alice") ≤ 1 :=
  (orchestrator_dedup_by_username sampleApi ["tech", "ai"] 550000 40000 50 "alice").1

/-- C7: the adapter operations never propagate a transport or shape error:
a raised transport exception and a response missing the expected JSON
field(s) are both converted locally into the empty list, for both
search_users and get_user_videos. -/
theorem adapter_degrades_to_empty (e : String) (d : SearchResponse) (v : VideosResponse)
    (hd : d.userInfo = none ∨ ∃ ui, d.userInfo = some ui ∧ ui.user_list = none)
    (hv : v.itemList = none) :
    TikTokAPI.search_users (Except.error e) = [] ∧
    TikTokAPI.search_users (Except.ok d) = [] ∧
    TikTokAPI.get_user_videos (Except.error e) = [] ∧
    TikTokAPI.get_user_videos (Except.ok v) = [] := by
  refine ⟨rfl, ?_, rfl, ?_⟩
  · rcases hd with h | ⟨ui, h1, h2⟩
    · simp [TikTokAPI.search_users, h]
    · simp [TikTokAPI.search_users, h1, h2]
  · simp [TikTokAPI.get_user_videos, hv]

/-- C7 witness: a timeout and bodies with the expected fields absent. -/
theorem adapter_degrades_to_empty_witness :
    TikTokAPI.search_users (Except.error "timeout") = [] ∧
    TikTokAPI.search_users (Except.ok ⟨none⟩) = [] ∧
    TikTokAPI.get_user_videos (Except.error "timeout") = [] ∧
    TikTokAPI.get_user_videos (Except.ok ⟨none⟩) = [] :=
  adapter_degrades_to_empty "timeout" ⟨none⟩ ⟨none⟩ (Or.inl rfl) rfl

/-- C8: if the very first search call for a keyword returns an empty
sequence, the aggregator returns the empty collection, and filtering that
(empty) collection yields zero qualified influencers for the keyword. -/
theorem empty_first_page_empty_result (api : Api) (keyword : String) (mr : Nat)
    (mf mv : Int) (h : api.search_users keyword 30 0 = []) :
    search_influencers_by_keyword api.search_users keyword mr = [] ∧
    (filter_influencers api.get_user_videos
      (search_influencers_by_keyword api.search_users keyword mr) mf mv keyword).1 = [] := by
  have hs : search_influencers_by_keyword api.search_users keyword mr = [] := by
    unfold search_influencers_by_keyword
    cases mr with
    | zero => simp [searchLoop, pyDict]
    | succ m =>
      simp only [searchLoop]
      rw [if_pos (by simp : ([] : List UserData).length < m + 1)]
      simp [h, pyDict]
  refine ⟨hs, ?_⟩
  rw [hs]
  rfl

/-- C8 witness: an adapter with no data at all. -/
theorem empty_first_page_empty_result_witness :
    search_influencers_by_keyword emptyApi.search_users "tech" 50 = [] ∧
    (filter_influencers emptyApi.get_user_videos
      (search_influencers_by_keyword emptyApi.search_users "tech" 50)
      550000 40000 "tech").1 = [] :=
  empty_first_page_empty_result emptyApi "tech" 50 550000 40000 rfl

/-- C9: the qualification filter is deterministic over its data inputs:
two video sources that agree on every candidate's fetched data (the frozen
per-candidate video lists) give identical accepted records and call traces,
so re-running on the same frozen data reproduces the same accepted set and
the same averages. -/
theorem filter_deterministic (g1 g2 : String → Nat → List Video)
    (users : List UserData) (mf mv : Int) (niche : String)
    (h : ∀ ud ∈ users, g1 ud.user.secUid 30 = g2 ud.user.secUid 30) :
    filter_influencers g1 users mf mv niche = filter_influencers g2 users mf mv niche := by
  have hp : ∀ ud ∈ users,
      processUser g1 mf mv niche ud = processUser g2 mf mv niche ud := by
    intro ud hud
    simp only [processUser, h ud hud]
  have h1 : users.map (fun ud => (processUser g1 mf mv niche ud).1.toList) =
      users.map (fun ud => (processUser g2 mf mv niche ud).1.toList) :=
    List.map_congr_left (fun ud hud => by rw [hp ud hud])
  have h2 : users.map (fun ud => (processUser g1 mf mv niche ud).2) =
      users.map (fun ud => (processUser g2 mf mv niche ud).2) :=
    List.map_congr_left (fun ud hud => by rw [hp ud hud])
  rw [filter_influencers_eq, filter_influencers_eq, h1, h2]

/-- C9 witness: two syntactically different video sources that agree on
the sample candidate give equal filter runs. -/
theorem filter_deterministic_witness :
    filter_influencers fetchSample [sampleA] 550000 40000 "tech" =
      filter_influencers fetchOnlySa [sampleA] 550000 40000 "tech" :=
  filter_deterministic fetchSample fetchOnlySa [sampleA] 550000 40000 "tech" (by decide)

/-- C10: a candidate record lacking the followerCount field is treated as
having 0 followers, so for any non-negative max_followers it passes the
follower-ceiling check and proceeds to the video fetch: its call trace is
exactly the one fetch of its secUid. -/
theorem missing_follower_count_passes (getVideos : String → Nat → List Video)
    (mf mv : Int) (niche : String) (ud : UserData)
    (h0 : ud.user.followerCount = none) (hmf : 0 ≤ mf) :
    (processUser getVideos mf mv niche ud).2 = [ud.user.secUid] := by
  simp only [processUser, h0, Option.getD_none]
  rw [if_neg (by omega : ¬ (0 : Int) > mf)]
  split
  · rfl
  · split <;> rfl

/-- C10 witness: a concrete candidate without followerCount proceeds to
the fetch under the default ceiling. -/
theorem missing_follower_count_passes_witness :
    (processUser fetchSample 550000 40000 "tech" sampleNoFC).2 =
      [sampleNoFC.user.secUid] :=
  missing_follower_count_passes fetchSample 550000 40000 "tech" sampleNoFC rfl (by decide)
